import Mathlib

/-!
Verification of the notebook "Embedded Languages via Overloading".

The notebook defines, in order:
  * a `vector` class with an overloaded `__eq__`;
  * bit-level functions `equal` and `equals` (the second `equals`, based on
    `functools.reduce`, shadows the loop-based first one);
  * three successive `circuit` class variants overloading `|`, `&` and the
    reflected subtraction `1 - c`:
      1. an operation-tagged tree (fields `op` and `args`),
      2. a subclass of `dict`,
      3. a subclass of the NetworkX `Graph` class.

Python exceptions are modelled with `Except PyErr`; a Python value appearing
as the left operand of `-` is modelled by `PyVal` (an `int` — which also
covers `bool`, a subclass of `int` in Python — or any non-`int` value).
-/

namespace EmbLang

/-- A Python value used as the left operand of `-` on a circuit: either an
`int` (Python `bool`s are `int`s, so `True` is `int 1`) or some non-`int`. -/
inductive PyVal where
  | int (n : Int)
  | nonInt
  deriving DecidableEq, Repr

/-- The Python exceptions that the notebook's code can raise. -/
inductive PyErr where
  | valueError
  | typeError
  | indexError
  deriving DecidableEq, Repr

/-! ### The `vector` class

    class vector():
        def __init__(self, *coordinates):
            self.coordinates = coordinates
        def __eq__(self, other):
            return self.coordinates == other.coordinates
-/

/-- The `vector` class: its only field is the tuple of coordinates
(integers in the notebook's example). -/
structure vector where
  coordinates : List Int
  deriving DecidableEq, Repr

/-- Method `vector.__eq__`: compares the coordinate tuples. -/
def vector.eq (self other : vector) : Bool :=
  self.coordinates == other.coordinates

/-! ### The generic `equal` / `equals` functions

    def equal(x, y):
        return (x & y) | ((1 - x) & (1 - y))

    def equals(xs, ys):
        from functools import reduce
        es = [equal(x, y) for (x, y) in zip(xs, ys)]
        return reduce((lambda e0, e1: e0 & e1), es)

These are parametrically polymorphic in Python: they work on `int`s and on
each of the three `circuit` variants.  The polymorphism is captured by a
record of the three overloaded operations; each operation may raise (the
Graph variant's methods can), so they return in `Except PyErr`. -/

/-- The operations `x & y`, `x | y` and `v - x` (via `__rsub__` or, for
`int`s, plain subtraction) at one type of the polymorphic functions. -/
structure BitOps (α : Type) where
  andE : α → α → Except PyErr α
  orE : α → α → Except PyErr α
  rsubE : PyVal → α → Except PyErr α

/-- Python `equal(x, y) = (x & y) | ((1 - x) & (1 - y))`, with Python's
left-to-right evaluation order. -/
def equal {α : Type} (L : BitOps α) (x y : α) : Except PyErr α := do
  let a ← L.andE x y
  let nx ← L.rsubE (.int 1) x
  let ny ← L.rsubE (.int 1) y
  let b ← L.andE nx ny
  L.orE a b

/-- The list comprehension `[f(p) for p in l]`: stops at the first raised
exception. -/
def mapExcept {α β : Type} (f : α → Except PyErr β) : List α → Except PyErr (List β)
  | [] => .ok []
  | a :: l => do
    let b ← f a
    let bs ← mapExcept f l
    pure (b :: bs)

/-- Python `functools.reduce(f, es)` after the first element has been split off:
left-to-right folding, propagating exceptions. -/
def foldExcept {β : Type} (f : β → β → Except PyErr β) (a : β) : List β → Except PyErr β
  | [] => .ok a
  | b :: l => do
    let c ← f a b
    foldExcept f c l

/-- Python `equals(xs, ys)` (the `reduce`-based definition, which shadows the
loop-based one): `zip` truncates to the shorter list, and `reduce` with no
initial value raises `TypeError` on an empty sequence. -/
def equals {α : Type} (L : BitOps α) (xs ys : List α) : Except PyErr α := do
  let es ← mapExcept (fun p => equal L p.1 p.2) (xs.zip ys)
  match es with
  | [] => .error .typeError
  | e :: rest => foldExcept L.andE e rest

/-- The `int` instantiation: `&` and `|` are bitwise, `1 - x` is plain
subtraction (for an `int` right operand, `int.__sub__` applies; a non-`int`
left operand with no matching method gives `TypeError`). -/
def intOps : BitOps Int where
  andE x y := .ok (Int.land x y)
  orE x y := .ok (Int.lor x y)
  rsubE v x :=
    match v with
    | .int n => .ok (n - x)
    | .nonInt => .error .typeError

/-! ### Circuit variant 1: operation-tagged trees

    class circuit():
        def __init__(self, op='bit', args=None):
            self.op = op
            self.args = [] if args is None else args
        def __or__(self, other):
            return circuit('or', [self, other])
        def __and__(self, other):
            return circuit('and', [self, other])
        def __rsub__(self, other):
            if not isinstance(other, int) or other != 1:
                raise ValueError('can only subtract from 1')
            return circuit('not', [self])
-/

/-- Variant 1 of the `circuit` class.  The `args` field holds either an
`int` (as in the bit constant `circuit("bit", 0)`) or a list of
sub-circuits (`[]` when the constructor's `args` is `None`). -/
inductive circuit1 where
  | mk (op : String) (args : Int ⊕ List circuit1)
  deriving Repr

/-- The `op` field of a variant-1 circuit. -/
def circuit1.op : circuit1 → String
  | .mk o _ => o

/-- The `args` field of a variant-1 circuit. -/
def circuit1.args : circuit1 → Int ⊕ List circuit1
  | .mk _ a => a

/-- Method `circuit.__or__` (variant 1). -/
def circuit1.orC (self other : circuit1) : circuit1 :=
  .mk "or" (.inr [self, other])

/-- Method `circuit.__and__` (variant 1). -/
def circuit1.andC (self other : circuit1) : circuit1 :=
  .mk "and" (.inr [self, other])

/-- Method `circuit.__rsub__` (variant 1): the guard accepts exactly an `int`
equal to `1` and otherwise raises `ValueError`. -/
def circuit1.rsub (other : PyVal) (self : circuit1) : Except PyErr circuit1 :=
  if other = .int 1 then .ok (.mk "not" (.inr [self]))
  else .error .valueError

/-- The variant-1 instantiation of the polymorphic `equal` / `equals`. -/
def circuit1Ops : BitOps circuit1 where
  andE x y := .ok (x.andC y)
  orE x y := .ok (x.orC y)
  rsubE := circuit1.rsub

/-! ### Circuit variant 2: subclass of `dict`

    class circuit(dict):
        def __or__(self, other):
            return circuit({'or': [self, other]})
        def __and__(self, other):
            return circuit({'and': [self, other]})
        def __rsub__(self, other):
            if not isinstance(other, int) or other != 1:
                raise ValueError('can only subtract from 1')
            return circuit({'not': [self]})
-/

/-- The JSON-like values a variant-2 circuit is built from: a variant-2
circuit is a dictionary (an ordered association list, as Python `dict`s
preserve insertion order) whose values are `int`s, lists or nested
dictionaries. -/
inductive DVal where
  | int (n : Int)
  | arr (xs : List DVal)
  | dict (entries : List (String × DVal))
  deriving Repr

/-- Method `circuit.__or__` (variant 2). -/
def DVal.orC (self other : DVal) : DVal :=
  .dict [("or", .arr [self, other])]

/-- Method `circuit.__and__` (variant 2). -/
def DVal.andC (self other : DVal) : DVal :=
  .dict [("and", .arr [self, other])]

/-- Method `circuit.__rsub__` (variant 2): same guard as variant 1. -/
def DVal.rsub (other : PyVal) (self : DVal) : Except PyErr DVal :=
  if other = .int 1 then .ok (.dict [("not", .arr [self])])
  else .error .valueError

/-- The variant-2 instantiation of the polymorphic `equal` / `equals`. -/
def dvalOps : BitOps DVal where
  andE x y := .ok (x.andC y)
  orE x y := .ok (x.orC y)
  rsubE := DVal.rsub

/-! ### Circuit variant 3: subclass of the NetworkX `Graph` class

    from networkx import Graph, union
    class circuit(Graph):
        def __init__(self, arg=None):
            Graph.__init__(self)
            if arg is not None:
                self.add_nodes_from([str(arg)])
        def __or__(self, other):
            c = union(circuit("$\\vee$"), union(self, other, rename=("l-", "r-")))
            c.add_edges_from([("$\\vee$", "l-" + list(self.nodes)[0]),
                              ("$\\vee$", "r-" + list(other.nodes)[0])])
            return c
        def __and__(self, other):   # same with "$\\wedge$"
        def __rsub__(self, other):
            if not isinstance(other, int) or other != 1:
                raise ValueError('can only subtract from 1')
            c = union(circuit("$\\neg$"), self, rename=("", "n-"))
            c.add_edges_from([("$\\neg$", "n-" + list(self.nodes)[0])])
            return c

A NetworkX `Graph` keeps its nodes in insertion order; `union(G, H)` lists
`G`'s nodes then `H`'s, and `rename=(a, b)` prepends `a` to every node name
of `G` and `b` to every node name of `H` (edges renamed accordingly).
Edges are undirected and stored without duplicates. -/

/-- Variant 3 of the `circuit` class: a NetworkX graph with string node
names in insertion order and a duplicate-free list of undirected edges. -/
structure GCircuit where
  nodes : List String
  edges : List (String × String)
  deriving DecidableEq, Repr

/-- The variant-3 constructor `circuit(arg)`: an empty graph, to which one
node named `str(arg)` is added when `arg is not None`. -/
def gcircuitInit (arg : Option String) : GCircuit :=
  match arg with
  | none => ⟨[], []⟩
  | some s => ⟨[s], []⟩

/-- Renaming of a graph by prepending `p` to every node name, as done by
`union`'s `rename` argument. -/
def gren (p : String) (g : GCircuit) : GCircuit :=
  ⟨g.nodes.map (fun n => p ++ n), g.edges.map (fun e => (p ++ e.1, p ++ e.2))⟩

/-- NetworkX `union(G, H)` on disjoint graphs: `G`'s nodes then `H`'s. -/
def gunion (g h : GCircuit) : GCircuit :=
  ⟨g.nodes ++ h.nodes, g.edges ++ h.edges⟩

/-- NetworkX `union(G, H, rename=(a, b))`. -/
def gunionRen (a b : String) (g h : GCircuit) : GCircuit :=
  gunion (gren a g) (gren b h)

/-- Whether the undirected edge `e` is present in `g`. -/
def hasEdge (g : GCircuit) (e : String × String) : Bool :=
  g.edges.any (fun d => (d.1 == e.1 && d.2 == e.2) || (d.1 == e.2 && d.2 == e.1))

/-- Adding a node if absent (as `Graph.add_edge` does for endpoints). -/
def addNode (g : GCircuit) (n : String) : GCircuit :=
  if g.nodes.contains n then g else ⟨g.nodes ++ [n], g.edges⟩

/-- Adding one undirected edge, inserting missing endpoints first. -/
def addEdge (g : GCircuit) (e : String × String) : GCircuit :=
  let g1 := addNode (addNode g e.1) e.2
  if hasEdge g1 e then g1 else ⟨g1.nodes, g1.edges ++ [e]⟩

/-- Method `Graph.add_edges_from`. -/
def addEdgesFrom (g : GCircuit) (es : List (String × String)) : GCircuit :=
  es.foldl addEdge g

/-- Python `list(g.nodes)[0]`: raises `IndexError` on a graph with no nodes. -/
def headNode (g : GCircuit) : Except PyErr String :=
  match g.nodes with
  | [] => .error .indexError
  | n :: _ => .ok n

/-- Method `circuit.__or__` (variant 3).  The new graph `c` is built by `union`;
evaluating the edge list raises `IndexError` when an operand has no
nodes. -/
def gorE (self other : GCircuit) : Except PyErr GCircuit := do
  let c := gunion (gcircuitInit (some "$\\vee$")) (gunionRen "l-" "r-" self other)
  let ns ← headNode self
  let no ← headNode other
  pure (addEdgesFrom c [("$\\vee$", "l-" ++ ns), ("$\\vee$", "r-" ++ no)])

/-- Method `circuit.__and__` (variant 3). -/
def gandE (self other : GCircuit) : Except PyErr GCircuit := do
  let c := gunion (gcircuitInit (some "$\\wedge$")) (gunionRen "l-" "r-" self other)
  let ns ← headNode self
  let no ← headNode other
  pure (addEdgesFrom c [("$\\wedge$", "l-" ++ ns), ("$\\wedge$", "r-" ++ no)])

/-- Method `circuit.__rsub__` (variant 3): the `ValueError` guard, then the
negation graph; `IndexError` when `self` has no nodes. -/
def grsubE (other : PyVal) (self : GCircuit) : Except PyErr GCircuit :=
  if other = .int 1 then do
    let c := gunionRen "" "n-" (gcircuitInit (some "$\\neg$")) self
    let ns ← headNode self
    pure (addEdgesFrom c [("$\\neg$", "n-" ++ ns)])
  else .error .valueError

/-- The variant-3 instantiation of the polymorphic `equal` / `equals`. -/
def gOps : BitOps GCircuit where
  andE := gandE
  orE := gorE
  rsubE := grsubE

/-! ### JSON serialization of variant-2 circuits

Python `json.dumps` with default separators renders a `dict` as
`{"k": v, ...}`, a list as `[a, b]` and an `int` in decimal.  The keys the
circuit classes produce never need escaping. -/

mutual

/-- Python `json.dumps` on the values a variant-2 circuit is built from. -/
def dumps : DVal → String
  | .int n => toString n
  | .arr xs => "[" ++ String.intercalate ", " (dumpsList xs) ++ "]"
  | .dict es => "\x7b" ++ String.intercalate ", " (dumpsEntries es) ++ "\x7d"

/-- Serialization of the elements of a JSON array. -/
def dumpsList : List DVal → List String
  | [] => []
  | x :: xs => dumps x :: dumpsList xs

/-- Serialization of the entries of a JSON object. -/
def dumpsEntries : List (String × DVal) → List String
  | [] => []
  | e :: es => ("\"" ++ e.1 ++ "\": " ++ dumps e.2) :: dumpsEntries es

end

/-! ### The map from variant-1 circuits to variant-2 circuits

Sends `circuit(op, args)` to the one-entry dictionary `{op: args}`. -/

mutual

/-- The homomorphism sending a variant-1 `circuit(op, args)` to the
one-entry dictionary `{op: args}` of variant 2. -/
def toDict : circuit1 → DVal
  | .mk op (.inl n) => .dict [(op, .int n)]
  | .mk op (.inr cs) => .dict [(op, .arr (toDictList cs))]

/-- Pointwise image of a list of variant-1 circuits. -/
def toDictList : List circuit1 → List DVal
  | [] => []
  | c :: cs => toDict c :: toDictList cs

end

/-! ### Expressions over bit constants, and their two constructions (C8)

An expression built from bit constants using only `|`, `&` and `1 -` can be
evaluated with either circuit variant; `interp1` and `interp2` perform the
two constructions. -/

/-- Syntax of the expressions a programmer can write from bit constants
with the three overloaded operators. -/
inductive CExpr where
  | bit (b : Int)
  | orE (e1 e2 : CExpr)
  | andE (e1 e2 : CExpr)
  | oneSub (e : CExpr)

/-- Building the expression with circuit variant 1 (`circuit("bit", b)` for
the constants; `1 - c` passes the guard, giving the `'not'` node). -/
def interp1 : CExpr → circuit1
  | .bit b => .mk "bit" (.inl b)
  | .orE e1 e2 => (interp1 e1).orC (interp1 e2)
  | .andE e1 e2 => (interp1 e1).andC (interp1 e2)
  | .oneSub e => .mk "not" (.inr [interp1 e])

/-- Building the expression with circuit variant 2 (`circuit({"bit": b})`
for the constants). -/
def interp2 : CExpr → DVal
  | .bit b => .dict [("bit", .int b)]
  | .orE e1 e2 => (interp2 e1).orC (interp2 e2)
  | .andE e1 e2 => (interp2 e1).andC (interp2 e2)
  | .oneSub e => .dict [("not", .arr [interp2 e])]

/-! ### The shape invariant of variant-1 circuits (C5) -/

/-- The operation-tagged-tree shape of claim C5: `op` is one of `'bit'`,
`'or'`, `'and'`, `'not'`; `args` is a two-element list of sub-circuits for
`'or'` and `'and'`, a one-element list for `'not'`, and for `'bit'` either
the empty list or a bit value `0` or `1`. -/
def WF1 : circuit1 → Bool
  | .mk op args =>
    match op, args with
    | "bit", .inl b => b == 0 || b == 1
    | "bit", .inr [] => true
    | "or", .inr [c, d] => WF1 c && WF1 d
    | "and", .inr [c, d] => WF1 c && WF1 d
    | "not", .inr [c] => WF1 c
    | _, _ => false

/-- The variant-1 circuits a programmer can build from bit-constant
circuits (such as `circuit("bit", 0)`) by the operators `|`, `&` and
`1 -`. -/
inductive Built1 : circuit1 → Prop where
  | bit (b : Int) (hb : b = 0 ∨ b = 1) : Built1 (.mk "bit" (.inl b))
  | orC {c d : circuit1} : Built1 c → Built1 d → Built1 (c.orC d)
  | andC {c d : circuit1} : Built1 c → Built1 d → Built1 (c.andC d)
  | notC {c : circuit1} : Built1 c → Built1 (.mk "not" (.inr [c]))

/-! ### A store model for the frame claim (C4)

Python objects live on a heap; an operator method may in principle mutate
its operands.  To state that the circuit methods do not, the methods are
re-embedded over an explicit store: an address is an index into a list of
cells, object creation appends a fresh cell, and the one genuine mutation in
the source — `c.add_edges_from(...)` on the freshly built graph `c` of
variant 3 — is an explicit `set` on the fresh address. -/

/-- A store of Python objects of one class: cell `a` is the object at
address `a`. -/
structure Store (α : Type) where
  cells : List α

instance : Inhabited circuit1 := ⟨.mk "bit" (.inr [])⟩

instance : Inhabited DVal := ⟨.dict []⟩

instance : Inhabited GCircuit := ⟨⟨[], []⟩⟩

/-- Reading the object at address `a`. -/
def Store.get {α : Type} [Inhabited α] (s : Store α) (a : Nat) : α :=
  s.cells.getD a default

/-- Allocating a new object: a fresh cell at the end of the store. -/
def Store.alloc {α : Type} (s : Store α) (x : α) : Store α × Nat :=
  (⟨s.cells ++ [x]⟩, s.cells.length)

/-- Mutating the object at address `a`. -/
def Store.set {α : Type} (s : Store α) (a : Nat) (x : α) : Store α :=
  ⟨s.cells.set a x⟩

/-- Method `circuit.__or__` (variant 1) over the store: reads the operands,
allocates the new tree, mutates nothing. -/
def or1H (s : Store circuit1) (a b : Nat) : Store circuit1 × Nat :=
  s.alloc ((s.get a).orC (s.get b))

/-- Method `circuit.__and__` (variant 1) over the store. -/
def and1H (s : Store circuit1) (a b : Nat) : Store circuit1 × Nat :=
  s.alloc ((s.get a).andC (s.get b))

/-- Method `circuit.__rsub__` (variant 1) over the store: on a rejected operand
the exception leaves the store untouched. -/
def rsub1H (s : Store circuit1) (v : PyVal) (a : Nat) :
    Store circuit1 × Except PyErr Nat :=
  if v = .int 1 then
    let p := s.alloc (.mk "not" (.inr [s.get a]))
    (p.1, .ok p.2)
  else (s, .error .valueError)

/-- Method `circuit.__or__` (variant 2) over the store. -/
def or2H (s : Store DVal) (a b : Nat) : Store DVal × Nat :=
  s.alloc ((s.get a).orC (s.get b))

/-- Method `circuit.__and__` (variant 2) over the store. -/
def and2H (s : Store DVal) (a b : Nat) : Store DVal × Nat :=
  s.alloc ((s.get a).andC (s.get b))

/-- Method `circuit.__rsub__` (variant 2) over the store. -/
def rsub2H (s : Store DVal) (v : PyVal) (a : Nat) :
    Store DVal × Except PyErr Nat :=
  if v = .int 1 then
    let p := s.alloc (.dict [("not", .arr [s.get a])])
    (p.1, .ok p.2)
  else (s, .error .valueError)

/-- Method `circuit.__or__` (variant 3) over the store: `union` allocates the new
graph `c`; `add_edges_from` then mutates `c` only.  When an operand has no
nodes, the `IndexError` propagates after `c` was allocated but before the
edges are added, and no cell is mutated. -/
def or3H (s : Store GCircuit) (a b : Nat) : Store GCircuit × Except PyErr Nat :=
  let self := s.get a
  let other := s.get b
  let p := s.alloc (gunion (gcircuitInit (some "$\\vee$")) (gunionRen "l-" "r-" self other))
  match headNode self, headNode other with
  | .ok ns, .ok no =>
    (p.1.set p.2 (addEdgesFrom (p.1.get p.2) [("$\\vee$", "l-" ++ ns), ("$\\vee$", "r-" ++ no)]),
     .ok p.2)
  | .error e, _ => (p.1, .error e)
  | .ok _, .error e => (p.1, .error e)

/-- Method `circuit.__and__` (variant 3) over the store. -/
def and3H (s : Store GCircuit) (a b : Nat) : Store GCircuit × Except PyErr Nat :=
  let self := s.get a
  let other := s.get b
  let p := s.alloc (gunion (gcircuitInit (some "$\\wedge$")) (gunionRen "l-" "r-" self other))
  match headNode self, headNode other with
  | .ok ns, .ok no =>
    (p.1.set p.2 (addEdgesFrom (p.1.get p.2) [("$\\wedge$", "l-" ++ ns), ("$\\wedge$", "r-" ++ no)]),
     .ok p.2)
  | .error e, _ => (p.1, .error e)
  | .ok _, .error e => (p.1, .error e)

/-- Method `circuit.__rsub__` (variant 3) over the store. -/
def rsub3H (s : Store GCircuit) (v : PyVal) (a : Nat) :
    Store GCircuit × Except PyErr Nat :=
  if v = .int 1 then
    let self := s.get a
    let p := s.alloc (gunionRen "" "n-" (gcircuitInit (some "$\\neg$")) self)
    match headNode self with
    | .ok ns => (p.1.set p.2 (addEdgesFrom (p.1.get p.2) [("$\\neg$", "n-" ++ ns)]), .ok p.2)
    | .error e => (p.1, .error e)
  else (s, .error .valueError)

/-! ### Auxiliary definitions used in the statements -/

/-- The pure value of `equal(x, y)` on Python `int`s. -/
def equalInt (x y : Int) : Int :=
  Int.lor (Int.land x y) (Int.land (1 - x) (1 - y))

/-- A Python `int` representing a bit. -/
def IsBit (x : Int) : Prop := x = 0 ∨ x = 1

/-- The cells of the two operand addresses `a` and `b` are unchanged in the
store `s'` produced from `s`. -/
def Frames {α : Type} [Inhabited α] (s : Store α) (a b : Nat) (s' : Store α) : Prop :=
  s'.get a = s.get a ∧ s'.get b = s.get b

/-- The operation starting from store `s` returned a freshly allocated
address holding the object `v` (for operations that cannot raise). -/
def ReturnsNew {α : Type} [Inhabited α] (s : Store α) (out : Store α × Nat) (v : α) : Prop :=
  out.2 = s.cells.length ∧ out.1.get out.2 = v ∧ out.1.cells.length = s.cells.length + 1

/-- The operation starting from store `s` returned, without raising, a
freshly allocated address holding the object `v`. -/
def ReturnsNewE {α : Type} [Inhabited α] (s : Store α) (out : Store α × Except PyErr Nat)
    (v : α) : Prop :=
  out.2 = .ok s.cells.length ∧ out.1.get s.cells.length = v ∧
    out.1.cells.length = s.cells.length + 1

/-! ## Helper lemmas -/

theorem mapExcept_ok {α β : Type} (f : α → Except PyErr β) (g : α → β)
    (h : ∀ a, f a = .ok (g a)) : ∀ l : List α, mapExcept f l = .ok (l.map g)
  | [] => rfl
  | a :: l => by
    show (f a >>= fun b => mapExcept f l >>= fun bs => pure (b :: bs)) = _
    rw [h a]
    show (mapExcept f l >>= fun bs => pure (g a :: bs)) = _
    rw [mapExcept_ok f g h l]
    rfl

theorem foldExcept_ok {β : Type} (f : β → β → Except PyErr β) (g : β → β → β)
    (h : ∀ a b, f a b = .ok (g a b)) :
    ∀ (l : List β) (a : β), foldExcept f a l = .ok (l.foldl g a)
  | [], _ => rfl
  | b :: l, a => by
    show (f a b >>= fun c => foldExcept f c l) = _
    rw [h a b]
    show foldExcept f (g a b) l = _
    rw [foldExcept_ok f g h l (g a b)]
    rfl

theorem equal_intOps (x y : Int) : equal intOps x y = .ok (equalInt x y) := rfl

theorem equalInt_bit {x y : Int} (hx : IsBit x) (hy : IsBit y) :
    equalInt x y = if x = y then 1 else 0 := by
  rcases hx with rfl | rfl <;> rcases hy with rfl | rfl <;> decide

theorem isBit_equalInt {x y : Int} (hx : IsBit x) (hy : IsBit y) : IsBit (equalInt x y) := by
  unfold IsBit
  rcases hx with rfl | rfl <;> rcases hy with rfl | rfl <;> decide

theorem land_equalInt_bit {a x y : Int} (ha : IsBit a) (hx : IsBit x) (hy : IsBit y) :
    Int.land a (equalInt x y) = if a = 1 ∧ x = y then 1 else 0 := by
  rcases ha with rfl | rfl <;> rcases hx with rfl | rfl <;> rcases hy with rfl | rfl <;> decide

theorem isBit_land {a b : Int} (ha : IsBit a) (hb : IsBit b) : IsBit (Int.land a b) := by
  unfold IsBit
  rcases ha with rfl | rfl <;> rcases hb with rfl | rfl <;> decide

/-- The left fold of `&` over the bit-equality indicators of `xs.zip ys`. -/
theorem foldl_land_equal :
    ∀ (xs ys : List Int) (a : Int), xs.length = ys.length → IsBit a →
      (∀ u ∈ xs, IsBit u) → (∀ u ∈ ys, IsBit u) →
      List.foldl Int.land a ((xs.zip ys).map fun p => equalInt p.1 p.2) =
        if a = 1 ∧ xs = ys then 1 else 0
  | [], [], a, _, ha, _, _ => by
    rcases ha with rfl | rfl <;> simp
  | [], _ :: _, _, hlen, _, _, _ => by simp at hlen
  | _ :: _, [], _, hlen, _, _, _ => by simp at hlen
  | x :: xs, y :: ys, a, hlen, ha, hxs, hys => by
    have hx : IsBit x := hxs x (by simp)
    have hy : IsBit y := hys y (by simp)
    have hxs' : ∀ u ∈ xs, IsBit u := fun u hu => hxs u (by simp [hu])
    have hys' : ∀ u ∈ ys, IsBit u := fun u hu => hys u (by simp [hu])
    have hlen' : xs.length = ys.length := by simpa using hlen
    have ha' : IsBit (Int.land a (equalInt x y)) := isBit_land ha (isBit_equalInt hx hy)
    rw [List.zip_cons_cons, List.map_cons, List.foldl_cons,
      foldl_land_equal xs ys _ hlen' ha' hxs' hys', land_equalInt_bit ha hx hy]
    by_cases h1 : a = 1 <;> by_cases h2 : x = y <;> by_cases h3 : xs = ys <;>
      simp [h1, h2, h3]

/-! ## The claims -/

/-- C3: for all vectors `v` and `w`, `v == w` (method `vector.__eq__`)
returns `True` exactly when the coordinate tuples agree; on `vector(1,2)`
and `vector(3,4)` the pair `(v == w, v == v)` is `(False, True)`, and
`v == v` is `True` for every vector. -/
theorem c3_vector_eq :
    (∀ v w : vector, vector.eq v w = true ↔ v.coordinates = w.coordinates) ∧
    (vector.eq (vector.mk [1, 2]) (vector.mk [3, 4]),
      vector.eq (vector.mk [1, 2]) (vector.mk [1, 2])) = (false, true) ∧
    (∀ v : vector, vector.eq v v = true) := by
  refine ⟨fun v w => ?_, by decide, fun v => ?_⟩ <;> simp [vector.eq]

/-- C10: `equals` applied to two lists whose `zip` is empty — in
particular `equals([], [])`, for `int` bits and for each circuit variant —
raises `TypeError`, since `reduce` is given an empty sequence and no
initial value. -/
theorem c10_empty_zip_type_error :
    (∀ (α : Type) (L : BitOps α) (xs ys : List α), xs.zip ys = [] →
      equals L xs ys = .error .typeError) ∧
    equals intOps ([] : List Int) [] = .error .typeError ∧
    equals circuit1Ops [] [] = .error .typeError ∧
    equals dvalOps [] [] = .error .typeError ∧
    equals gOps [] [] = .error .typeError := by
  refine ⟨fun α L xs ys h => ?_, rfl, rfl, rfl, rfl⟩
  show (mapExcept (fun p => equal L p.1 p.2) (xs.zip ys) >>= fun es =>
    match es with
    | [] => .error .typeError
    | e :: rest => foldExcept L.andE e rest) = _
  rw [h]
  rfl

/-- Witness for C10 at a concrete input: `zip` of `[1, 1]` and `[]` is
empty, so `equals` raises `TypeError`. -/
theorem c10_witness : equals intOps [1, 1] ([] : List Int) = .error .typeError :=
  c10_empty_zip_type_error.1 Int intOps [1, 1] [] rfl

/-- C9: `equals` compares only the first `min(len(xs), len(ys))` elements,
because `zip` truncates to the shorter list; in particular
`equals([1], [1, 0])` returns `1` with no length-mismatch error. -/
theorem c9_zip_truncates :
    (∀ (α : Type) (L : BitOps α) (xs ys : List α),
      equals L xs ys =
        equals L (xs.take (min xs.length ys.length)) (ys.take (min xs.length ys.length))) ∧
    equals intOps [1] [1, 0] = .ok 1 := by
  refine ⟨fun α L xs ys => ?_, rfl⟩
  simp only [equals]
  rw [← List.zip_eq_zip_take_min]

/-- C1: on non-empty, equal-length lists of bits (`0` or `1`), the
`reduce`-based `equals` returns `1` when the lists are element-wise equal
and `0` otherwise; on `[0,1,1]` and `[0,1,1]` it returns `1`, the printed
output. -/
theorem c1_equals_bits :
    (∀ xs ys : List Int, xs ≠ [] → xs.length = ys.length →
      (∀ u ∈ xs, u = 0 ∨ u = 1) → (∀ u ∈ ys, u = 0 ∨ u = 1) →
      equals intOps xs ys = .ok (if xs = ys then 1 else 0)) ∧
    equals intOps [0, 1, 1] [0, 1, 1] = .ok 1 := by
  refine ⟨?_, rfl⟩
  intro xs ys hne hlen hxs hys
  match xs, ys with
  | [], _ => exact absurd rfl hne
  | x :: xs, [] => simp at hlen
  | x :: xs, y :: ys =>
    have hx : IsBit x := hxs x (by simp)
    have hy : IsBit y := hys y (by simp)
    have hxs' : ∀ u ∈ xs, IsBit u := fun u hu => hxs u (by simp [hu])
    have hys' : ∀ u ∈ ys, IsBit u := fun u hu => hys u (by simp [hu])
    have hlen' : xs.length = ys.length := by simpa using hlen
    unfold equals
    rw [mapExcept_ok (fun p : Int × Int => equal intOps p.1 p.2)
      (fun p => equalInt p.1 p.2) (fun _ => rfl) ((x :: xs).zip (y :: ys))]
    show foldExcept intOps.andE (equalInt x y) ((xs.zip ys).map fun p => equalInt p.1 p.2) = _
    rw [foldExcept_ok intOps.andE Int.land (fun _ _ => rfl),
      foldl_land_equal xs ys (equalInt x y) hlen' (isBit_equalInt hx hy) hxs' hys',
      equalInt_bit hx hy]
    by_cases h2 : x = y <;> by_cases h3 : xs = ys <;> simp [h2, h3]

/-- Witness for C1 at concrete inputs: the bit vectors `[0, 1]` and
`[1, 1]` differ, so `equals` returns `0`. -/
theorem c1_witness : equals intOps [0, 1] [1, 1] = .ok 0 := by
  have h := c1_equals_bits.1 [0, 1] [1, 1] (by decide) (by decide) (by decide) (by decide)
  rw [if_neg (by decide)] at h
  exact h

/-- C8: building any expression over bit constants with the op-tagged
variant-1 class and with the dict-based variant-2 class yields trees
related node-for-node by the map sending `circuit(op, args)` to the
one-entry dictionary `{op: args}`. -/
theorem c8_variant1_refines_variant2 : ∀ e : CExpr, toDict (interp1 e) = interp2 e := by
  intro e
  induction e with
  | bit b => rfl
  | orE e1 e2 ih1 ih2 =>
    simp [interp1, interp2, toDict, toDictList, circuit1.orC, DVal.orC, ih1, ih2]
  | andE e1 e2 ih1 ih2 =>
    simp [interp1, interp2, toDict, toDictList, circuit1.andC, DVal.andC, ih1, ih2]
  | oneSub e ih =>
    simp [interp1, interp2, toDict, toDictList, ih]

/-- C5: every variant-1 circuit built from bit constants by `|`, `&` and
`1 -` satisfies the operation-tagged-tree shape `WF1`, and each operator
preserves the shape. -/
theorem c5_shape_invariant :
    (∀ c : circuit1, Built1 c → WF1 c = true) ∧
    (∀ c d : circuit1, WF1 c = true → WF1 d = true →
      WF1 (c.orC d) = true ∧ WF1 (c.andC d) = true ∧
      ∀ c', circuit1.rsub (.int 1) c = .ok c' → WF1 c' = true) := by
  constructor
  · intro c hc
    induction hc with
    | bit b hb => rcases hb with rfl | rfl <;> rfl
    | orC _ _ ih1 ih2 => simp [circuit1.orC, WF1, ih1, ih2]
    | andC _ _ ih1 ih2 => simp [circuit1.andC, WF1, ih1, ih2]
    | notC _ ih => simp [WF1, ih]
  · intro c d hc hd
    refine ⟨by simp [circuit1.orC, WF1, hc, hd], by simp [circuit1.andC, WF1, hc, hd], ?_⟩
    intro c' h
    have h2 : Except.ok (circuit1.mk "not" (.inr [c])) = Except.ok c' := h
    injection h2 with h3
    rw [← h3]
    simp [WF1, hc]

/-- Witness for C5 at a concrete input: the notebook's
`c2 = 1 - (c0 & c1)` with `c0 = circuit("bit", 0)` and
`c1 = circuit("bit", 1)` has the invariant shape. -/
theorem c5_witness :
    WF1 (.mk "not" (.inr [.mk "and" (.inr [.mk "bit" (.inl 0), .mk "bit" (.inl 1)])])) = true :=
  c5_shape_invariant.1 _ (.notC (.andC (.bit 0 (Or.inl rfl)) (.bit 1 (Or.inr rfl))))

/-- C2 counterexample: in the Graph variant a circuit may have no nodes
(the constructor's `arg` defaults to `None`), and then `1 - c`, although
its operand is the integer `1`, raises `IndexError` at
`list(self.nodes)[0]` instead of returning a negation circuit. -/
theorem c2_counterexample :
    grsubE (.int 1) (GCircuit.mk [] []) = .error .indexError := rfl

/-- C2 (amended): for every variant, `v - c` raises `ValueError` exactly
when `v` is not an integer equal to `1`; when `v` is the integer `1`,
variants 1 and 2 always return the negation circuit, and the Graph variant
returns it provided `c` has at least one node (a node-less `c` raises
`IndexError` instead). -/
theorem c2_rsub_guard :
    (∀ (v : PyVal) (c : circuit1),
      (circuit1.rsub v c = .error .valueError ↔ v ≠ .int 1) ∧
      circuit1.rsub (.int 1) c = .ok (.mk "not" (.inr [c]))) ∧
    (∀ (v : PyVal) (c : DVal),
      (DVal.rsub v c = .error .valueError ↔ v ≠ .int 1) ∧
      DVal.rsub (.int 1) c = .ok (.dict [("not", .arr [c])])) ∧
    (∀ (v : PyVal) (g : GCircuit),
      (grsubE v g = .error .valueError ↔ v ≠ .int 1) ∧
      (∀ n rest, g.nodes = n :: rest →
        grsubE (.int 1) g =
          .ok (addEdgesFrom (gunionRen "" "n-" (gcircuitInit (some "$\\neg$")) g)
            [("$\\neg$", "n-" ++ n)]))) := by
  refine ⟨fun v c => ⟨?_, rfl⟩, fun v c => ⟨?_, rfl⟩, fun v g => ⟨?_, ?_⟩⟩
  · by_cases hv : v = .int 1 <;> simp [circuit1.rsub, hv]
  · by_cases hv : v = .int 1 <;> simp [DVal.rsub, hv]
  · by_cases hv : v = .int 1
    · subst hv
      simp only [grsubE, if_pos rfl, ne_eq, not_true_eq_false, iff_false]
      cases hn : g.nodes with
      | nil => simp [headNode, hn]
      | cons n rest => simp [headNode, hn]
    · simp [grsubE, hv]
  · intro n rest hn
    simp [grsubE, headNode, hn]

/-- Witness for C2 at concrete inputs: a non-integer operand raises
`ValueError` in variant 1, and `1 - c` on the one-node Graph circuit
`circuit("$x_0$")` returns its negation graph. -/
theorem c2_witness :
    circuit1.rsub .nonInt (.mk "bit" (.inl 0)) = .error .valueError ∧
    grsubE (.int 1) (gcircuitInit (some "$x_0$")) =
      .ok (GCircuit.mk ["$\\neg$", "n-$x_0$"] [("$\\neg$", "n-$x_0$")]) := by
  constructor
  · exact (c2_rsub_guard.1 .nonInt (.mk "bit" (.inl 0))).1.mpr (by decide)
  · have h := (c2_rsub_guard.2.2 (.int 1) (gcircuitInit (some "$x_0$"))).2 "$x_0$" [] rfl
    rw [h]
    rfl

/-- C6: with the dict variant and `c0 = circuit({"bit": 0})`,
`c1 = circuit({"bit": 1})`, serializing `equals([c0, c1], [c0, c1])` with
`json.dumps` gives exactly the printed JSON string. -/
theorem c6_json_output :
    (equals dvalOps [DVal.dict [("bit", .int 0)], DVal.dict [("bit", .int 1)]]
        [DVal.dict [("bit", .int 0)], DVal.dict [("bit", .int 1)]]).map dumps =
      .ok "\x7b\"and\": [\x7b\"or\": [\x7b\"and\": [\x7b\"bit\": 0\x7d, \x7b\"bit\": 0\x7d]\x7d, \x7b\"and\": [\x7b\"not\": [\x7b\"bit\": 0\x7d]\x7d, \x7b\"not\": [\x7b\"bit\": 0\x7d]\x7d]\x7d]\x7d, \x7b\"or\": [\x7b\"and\": [\x7b\"bit\": 1\x7d, \x7b\"bit\": 1\x7d]\x7d, \x7b\"and\": [\x7b\"not\": [\x7b\"bit\": 1\x7d]\x7d, \x7b\"not\": [\x7b\"bit\": 1\x7d]\x7d]\x7d]\x7d]\x7d" := by
  rfl

/-- C7: with the Graph variant, the circuit
`equals([circuit('$x_0$'), circuit('$x_1$')], [circuit('$y_0$'), circuit('$y_1$')])`
has exactly 18 edges, and the last three of its nodes in insertion order
are `'r-r-l-n-$x_1$'`, `'r-r-r-$\neg$'` and `'r-r-r-n-$y_1$'`. -/
theorem c7_graph_output :
    (equals gOps [gcircuitInit (some "$x_0$"), gcircuitInit (some "$x_1$")]
        [gcircuitInit (some "$y_0$"), gcircuitInit (some "$y_1$")]).map
      (fun g => (g.nodes.drop (g.nodes.length - 3), g.edges.length)) =
      .ok (["r-r-l-n-$x_1$", "r-r-r-$\\neg$", "r-r-r-n-$y_1$"], 18) := by
  rfl

/-! ## Store lemmas for the frame claim -/

theorem Store.get_alloc_lt {α : Type} [Inhabited α] (s : Store α) (x : α) (a : Nat)
    (h : a < s.cells.length) : (s.alloc x).1.get a = s.get a := by
  simp [Store.alloc, Store.get, List.getD_eq_getElem?_getD, List.getElem?_append_left h]

theorem Store.get_alloc_self {α : Type} [Inhabited α] (s : Store α) (x : α) :
    (s.alloc x).1.get s.cells.length = x := by
  simp [Store.alloc, Store.get, List.getD_eq_getElem?_getD, List.getElem?_concat_length]

theorem Store.get_set_ne {α : Type} [Inhabited α] (s : Store α) (i a : Nat) (x : α)
    (h : a ≠ i) : (s.set i x).get a = s.get a := by
  simp [Store.set, Store.get, List.getD_eq_getElem?_getD, List.getElem?_set_ne (Ne.symm h)]

theorem Store.get_set_self {α : Type} [Inhabited α] (s : Store α) (i : Nat) (x : α)
    (h : i < s.cells.length) : (s.set i x).get i = x := by
  simp [Store.set, Store.get, List.getD_eq_getElem?_getD, List.getElem?_set_self, h]

theorem Store.length_alloc {α : Type} (s : Store α) (x : α) :
    (s.alloc x).1.cells.length = s.cells.length + 1 := by
  simp [Store.alloc]

theorem Store.length_set {α : Type} (s : Store α) (i : Nat) (x : α) :
    (s.set i x).cells.length = s.cells.length := by
  simp [Store.set]

theorem Store.get_alloc_out {α : Type} [Inhabited α] (s : Store α) (x : α) :
    (s.alloc x).1.get (s.alloc x).2 = x :=
  Store.get_alloc_self s x

theorem Store.frame_alloc_set {α : Type} [Inhabited α] (s : Store α) (x y : α) (a : Nat)
    (h : a < s.cells.length) : ((s.alloc x).1.set (s.alloc x).2 y).get a = s.get a := by
  have h2 : (s.alloc x).2 = s.cells.length := rfl
  rw [h2, Store.get_set_ne _ _ _ _ (Nat.ne_of_lt h), Store.get_alloc_lt s x a h]

theorem Store.get_alloc_set_self {α : Type} [Inhabited α] (s : Store α) (x y : α) :
    ((s.alloc x).1.set (s.alloc x).2 y).get s.cells.length = y := by
  have h2 : (s.alloc x).2 = s.cells.length := rfl
  rw [h2]
  exact Store.get_set_self _ _ _ (by simp [Store.alloc])

theorem Store.length_alloc_set {α : Type} (s : Store α) (x y : α) (i : Nat) :
    ((s.alloc x).1.set i y).cells.length = s.cells.length + 1 := by
  simp [Store.alloc, Store.set]

/-- C4 counterexample: in the Graph variant, `1 - c` on a node-less
circuit (the store's only cell) raises `IndexError` instead of returning a
new circuit, so the operation as described by the claim does not complete
for every pair of circuits. -/
theorem c4_counterexample :
    (rsub3H (Store.mk [GCircuit.mk [] []]) (.int 1) 0).2 = .error .indexError := rfl

/-- C4 (amended): over an explicit store, each of `c | d`, `c & d` and
`1 - c` leaves the operand cells unchanged in every variant (also on the
error paths), and returns a freshly allocated circuit holding the newly
constructed value — in the Graph variant provided the operands have at
least one node each, a node-less operand raising `IndexError` instead. -/
theorem c4_frame :
    (∀ (s : Store circuit1) (a b : Nat) (v : PyVal), a < s.cells.length → b < s.cells.length →
      (Frames s a b (or1H s a b).1 ∧ ReturnsNew s (or1H s a b) ((s.get a).orC (s.get b))) ∧
      (Frames s a b (and1H s a b).1 ∧ ReturnsNew s (and1H s a b) ((s.get a).andC (s.get b))) ∧
      (Frames s a b (rsub1H s v a).1 ∧
        ReturnsNewE s (rsub1H s (.int 1) a) (.mk "not" (.inr [s.get a])))) ∧
    (∀ (s : Store DVal) (a b : Nat) (v : PyVal), a < s.cells.length → b < s.cells.length →
      (Frames s a b (or2H s a b).1 ∧ ReturnsNew s (or2H s a b) ((s.get a).orC (s.get b))) ∧
      (Frames s a b (and2H s a b).1 ∧ ReturnsNew s (and2H s a b) ((s.get a).andC (s.get b))) ∧
      (Frames s a b (rsub2H s v a).1 ∧
        ReturnsNewE s (rsub2H s (.int 1) a) (.dict [("not", .arr [s.get a])]))) ∧
    (∀ (s : Store GCircuit) (a b : Nat) (v : PyVal), a < s.cells.length → b < s.cells.length →
      (Frames s a b (or3H s a b).1 ∧ Frames s a b (and3H s a b).1 ∧
        Frames s a b (rsub3H s v a).1) ∧
      (∀ ns no, headNode (s.get a) = .ok ns → headNode (s.get b) = .ok no →
        ReturnsNewE s (or3H s a b)
          (addEdgesFrom
            (gunion (gcircuitInit (some "$\\vee$")) (gunionRen "l-" "r-" (s.get a) (s.get b)))
            [("$\\vee$", "l-" ++ ns), ("$\\vee$", "r-" ++ no)]) ∧
        ReturnsNewE s (and3H s a b)
          (addEdgesFrom
            (gunion (gcircuitInit (some "$\\wedge$")) (gunionRen "l-" "r-" (s.get a) (s.get b)))
            [("$\\wedge$", "l-" ++ ns), ("$\\wedge$", "r-" ++ no)])) ∧
      (∀ ns, headNode (s.get a) = .ok ns →
        ReturnsNewE s (rsub3H s (.int 1) a)
          (addEdgesFrom (gunionRen "" "n-" (gcircuitInit (some "$\\neg$")) (s.get a))
            [("$\\neg$", "n-" ++ ns)]))) := by
  refine ⟨fun s a b v ha hb => ?_, fun s a b v ha hb => ?_, fun s a b v ha hb => ?_⟩
  · refine ⟨⟨⟨Store.get_alloc_lt s _ a ha, Store.get_alloc_lt s _ b hb⟩,
      rfl, Store.get_alloc_self s _, Store.length_alloc s _⟩,
      ⟨⟨Store.get_alloc_lt s _ a ha, Store.get_alloc_lt s _ b hb⟩,
      rfl, Store.get_alloc_self s _, Store.length_alloc s _⟩, ⟨?_, ?_⟩⟩
    · by_cases hv : v = .int 1 <;>
        simp [rsub1H, hv, Frames, Store.get_alloc_lt s _ a ha, Store.get_alloc_lt s _ b hb]
    · exact ⟨rfl, Store.get_alloc_self s _, Store.length_alloc s _⟩
  · refine ⟨⟨⟨Store.get_alloc_lt s _ a ha, Store.get_alloc_lt s _ b hb⟩,
      rfl, Store.get_alloc_self s _, Store.length_alloc s _⟩,
      ⟨⟨Store.get_alloc_lt s _ a ha, Store.get_alloc_lt s _ b hb⟩,
      rfl, Store.get_alloc_self s _, Store.length_alloc s _⟩, ⟨?_, ?_⟩⟩
    · by_cases hv : v = .int 1 <;>
        simp [rsub2H, hv, Frames, Store.get_alloc_lt s _ a ha, Store.get_alloc_lt s _ b hb]
    · exact ⟨rfl, Store.get_alloc_self s _, Store.length_alloc s _⟩
  · refine ⟨⟨?_, ?_, ?_⟩, fun ns no hna hnb => ⟨?_, ?_⟩, fun ns hna => ?_⟩
    · rcases hna : headNode (s.get a) with e | ns <;>
        rcases hnb : headNode (s.get b) with e2 | no <;>
        simp only [or3H, hna, hnb, Frames]
      · exact ⟨Store.get_alloc_lt s _ a ha, Store.get_alloc_lt s _ b hb⟩
      · exact ⟨Store.get_alloc_lt s _ a ha, Store.get_alloc_lt s _ b hb⟩
      · exact ⟨Store.get_alloc_lt s _ a ha, Store.get_alloc_lt s _ b hb⟩
      · exact ⟨Store.frame_alloc_set s _ _ a ha, Store.frame_alloc_set s _ _ b hb⟩
    · rcases hna : headNode (s.get a) with e | ns <;>
        rcases hnb : headNode (s.get b) with e2 | no <;>
        simp only [and3H, hna, hnb, Frames]
      · exact ⟨Store.get_alloc_lt s _ a ha, Store.get_alloc_lt s _ b hb⟩
      · exact ⟨Store.get_alloc_lt s _ a ha, Store.get_alloc_lt s _ b hb⟩
      · exact ⟨Store.get_alloc_lt s _ a ha, Store.get_alloc_lt s _ b hb⟩
      · exact ⟨Store.frame_alloc_set s _ _ a ha, Store.frame_alloc_set s _ _ b hb⟩
    · by_cases hv : v = .int 1
      · rcases hna : headNode (s.get a) with e | ns <;>
          simp only [rsub3H, hv, if_pos rfl, hna, Frames]
        · exact ⟨Store.get_alloc_lt s _ a ha, Store.get_alloc_lt s _ b hb⟩
        · exact ⟨Store.frame_alloc_set s _ _ a ha, Store.frame_alloc_set s _ _ b hb⟩
      · simp [rsub3H, hv, Frames]
    · simp only [or3H, hna, hnb, ReturnsNewE]
      refine ⟨rfl, ?_, Store.length_alloc_set s _ _ _⟩
      rw [Store.get_alloc_set_self, Store.get_alloc_out]
    · simp only [and3H, hna, hnb, ReturnsNewE]
      refine ⟨rfl, ?_, Store.length_alloc_set s _ _ _⟩
      rw [Store.get_alloc_set_self, Store.get_alloc_out]
    · simp only [rsub3H, eq_self_iff_true, if_true, hna, ReturnsNewE]
      refine ⟨rfl, ?_, Store.length_alloc_set s _ _ _⟩
      rw [Store.get_alloc_set_self, Store.get_alloc_out]

/-- Witness for C4 at a concrete store: `c | d` on the two one-node Graph
circuits `circuit('$x_0$')` and `circuit('$y_0$')` leaves the cell of the
first operand unchanged. -/
theorem c4_witness :
    (or3H (Store.mk [gcircuitInit (some "$x_0$"), gcircuitInit (some "$y_0$")]) 0 1).1.get 0 =
      gcircuitInit (some "$x_0$") := by
  have h := ((c4_frame.2.2 (Store.mk [gcircuitInit (some "$x_0$"), gcircuitInit (some "$y_0$")])
      0 1 .nonInt (by decide) (by decide)).1.1).1
  rw [h]
  rfl

end EmbLang
